import Mathlib

/-!
Verification model of the `my_local_pet` chatbot core.

Python strings are modelled as `List Char`; each definition mirrors the
corresponding function of the repository (`tool_registry.py`,
`search_processor.py`, `ollama_client.py`, `chatbot.py`).  JSON decoding
(`json.loads`) is modelled by an executable recursive-descent parser over a
`Json` value type; numeric literals are kept as their lexemes and the
`\uXXXX` string escape is not modelled (inputs using it are simply outside
the modelled decodable set).
-/

/-- Shorthand: the character list of a string literal. -/
def S (s : String) : List Char := s.toList

/-- The ASCII whitespace characters stripped by Python `str.strip()`. -/
def isPySpace (c : Char) : Bool :=
  c = ' ' || c = '\t' || c = '\n' || c = '\x0d' || c = '\x0b' || c = '\x0c'

/-- Python `str.strip()`: remove leading and trailing whitespace. -/
def pyStrip (s : List Char) : List Char :=
  ((s.dropWhile isPySpace).reverse.dropWhile isPySpace).reverse

/-- Python `str.lower()` (ASCII model). -/
def pyLower (s : List Char) : List Char := s.map Char.toLower

/-- Python `str.split()` with no argument: split on whitespace runs,
discarding empty pieces. -/
def pySplitWs (s : List Char) : List (List Char) :=
  (List.splitOnP isPySpace s).filter (fun w => w ≠ [])

/-- Helper for `findSub`: first index `≥ i` at which `sub` occurs in the
remaining text. -/
def findSubAux (sub : List Char) : List Char → Nat → Option Nat
  | [], i => if sub = [] then some i else none
  | c :: cs, i =>
    if sub.isPrefixOf (c :: cs) then some i else findSubAux sub cs (i + 1)

/-- Python `str.find(sub)`: index of the first occurrence (`none` for -1). -/
def findSub (sub s : List Char) : Option Nat := findSubAux sub s 0

/-- Python `str.find(sub, start)`: first occurrence at index `≥ start`. -/
def findSubFrom (sub s : List Char) (start : Nat) : Option Nat :=
  (findSubAux sub (s.drop start) 0).map (· + start)

/-- Python `sub in s`: substring containment test. -/
def containsSub (sub s : List Char) : Bool := (findSub sub s).isSome

/-- Index of the last occurrence of character `c` (Python `str.rfind`,
`none` for -1). -/
def lastIdxOf (c : Char) : List Char → Option Nat
  | [] => none
  | x :: xs =>
    match lastIdxOf c xs with
    | some i => some (i + 1)
    | none => if x = c then some 0 else none

/-- Index of the first occurrence of character `c` (Python `str.find`). -/
def firstIdxOf (c : Char) (s : List Char) : Option Nat := findSub [c] s

/-- Python slice `s[a:b]` for `a ≤ b` (the only use sites have `a ≤ b`). -/
def pySlice (s : List Char) (a b : Nat) : List Char := (s.drop a).take (b - a)

/-- JSON values as decoded by `json.loads`.  Object fields are kept in
source order (Python dict insertion order); numbers keep their lexeme. -/
inductive Json where
  | null
  | bool (b : Bool)
  | num (raw : List Char)
  | str (s : List Char)
  | arr (xs : List Json)
  | obj (fields : List (List Char × Json))

/-- Python dict lookup on decoded object fields: with duplicate keys the
last occurrence wins, as in `json.loads`. -/
def dictGet (flds : List (List Char × Json)) (k : List Char) : Option Json :=
  (flds.filter (fun f => f.1 = k)).getLast?.map (·.2)

/-- Python `dict.get(k, d)`. -/
def dictGetD (flds : List (List Char × Json)) (k : List Char) (d : Json) : Json :=
  (dictGet flds k).getD d

/-- Python truthiness of a decoded JSON value (`if value:`).  A number is
falsy exactly when all of its mantissa digits are `0`. -/
def jsonTruthy : Json → Bool
  | .null => false
  | .bool b => b
  | .num raw =>
    !(((raw.takeWhile (fun c => c ≠ 'e' && c ≠ 'E')).filter Char.isDigit).all (fun c => c = '0'))
  | .str s => !s.isEmpty
  | .arr xs => !xs.isEmpty
  | .obj flds => !flds.isEmpty

/-- Python type name of a decoded JSON value (used in error messages). -/
def pyTypeName : Json → List Char
  | .null => S "NoneType"
  | .bool _ => S "bool"
  | .num raw => if raw.any (fun c => c = '.' || c = 'e' || c = 'E') then S "float" else S "int"
  | .str _ => S "str"
  | .arr _ => S "list"
  | .obj _ => S "dict"

/-- JSON insignificant whitespace. -/
def isJsonWs (c : Char) : Bool := c = ' ' || c = '\t' || c = '\n' || c = '\x0d'

/-- Skip JSON whitespace. -/
def skipWs (s : List Char) : List Char := s.dropWhile isJsonWs

/-- Decoding of a two-character string escape (`\uXXXX` is not modelled). -/
def escChar : Char → Option Char
  | '"' => some '"'
  | '\\' => some '\\'
  | '/' => some '/'
  | 'b' => some '\x08'
  | 'f' => some '\x0c'
  | 'n' => some '\n'
  | 'r' => some '\x0d'
  | 't' => some '\t'
  | _ => none

/-- Parse the body of a JSON string literal after the opening quote;
returns the decoded characters and the text after the closing quote.
Unescaped control characters are rejected (strict mode). -/
def parseStringBody : List Char → Option (List Char × List Char)
  | [] => none
  | '"' :: rest => some ([], rest)
  | '\\' :: rest =>
    match rest with
    | [] => none
    | e :: rest' =>
      match escChar e with
      | some c => (parseStringBody rest').map (fun p => (c :: p.1, p.2))
      | none => none
  | c :: rest =>
    if c.toNat < 32 then none
    else (parseStringBody rest).map (fun p => (c :: p.1, p.2))

/-- One or more decimal digits. -/
def parseDigits (s : List Char) : Option (List Char × List Char) :=
  let ds := s.takeWhile Char.isDigit
  if ds = [] then none else some (ds, s.drop ds.length)

/-- The integer part of a JSON number: `0` or a nonzero digit followed by
digits (no leading zeros). -/
def parseIntPart : List Char → Option (List Char × List Char)
  | '0' :: rest => some (['0'], rest)
  | s =>
    match parseDigits s with
    | some (ds, rest) => some (ds, rest)
    | none => none

/-- The optional fraction part `.digits`. -/
def parseFracPart : List Char → Option (List Char × List Char)
  | '.' :: rest =>
    match parseDigits rest with
    | some (ds, rest') => some ('.' :: ds, rest')
    | none => none
  | _ => none

/-- The optional exponent part `[eE][+-]?digits`. -/
def parseExpPart : List Char → Option (List Char × List Char)
  | e :: rest =>
    if e = 'e' || e = 'E' then
      match rest with
      | sgn :: rest' =>
        if sgn = '+' || sgn = '-' then
          match parseDigits rest' with
          | some (ds, rest'') => some (e :: sgn :: ds, rest'')
          | none => none
        else
          match parseDigits rest with
          | some (ds, rest'') => some (e :: ds, rest'')
          | none => none
      | [] => none
    else none
  | [] => none

/-- A JSON number lexeme (kept as raw text). -/
def parseNumber (s : List Char) : Option (List Char × List Char) :=
  let core := fun (t : List Char) (sign : List Char) =>
    match parseIntPart t with
    | some (ip, rest) =>
      let (fp, rest') := (parseFracPart rest).getD ([], rest)
      let (ep, rest'') := (parseExpPart rest').getD ([], rest')
      some (sign ++ ip ++ fp ++ ep, rest'')
    | none => none
  match s with
  | '-' :: rest => core rest ['-']
  | _ => core s []

mutual

/-- Fuel-indexed recursive-descent parser for one JSON value; returns the
value and the unconsumed remainder. -/
def parseJsonVal : Nat → List Char → Option (Json × List Char)
  | 0, _ => none
  | fuel + 1, cs =>
    match skipWs cs with
    | 'n' :: 'u' :: 'l' :: 'l' :: rest => some (.null, rest)
    | 't' :: 'r' :: 'u' :: 'e' :: rest => some (.bool true, rest)
    | 'f' :: 'a' :: 'l' :: 's' :: 'e' :: rest => some (.bool false, rest)
    | '"' :: rest => (parseStringBody rest).map (fun p => (.str p.1, p.2))
    | '[' :: rest =>
      (match skipWs rest with
      | ']' :: rest' => some (.arr [], rest')
      | other => (parseElems fuel other).map (fun p => (.arr p.1, p.2)))
    | '\x7b' :: rest =>
      (match skipWs rest with
      | '\x7d' :: rest' => some (.obj [], rest')
      | other => (parseMembers fuel other).map (fun p => (.obj p.1, p.2)))
    | other =>
      (parseNumber other).map (fun p => (.num p.1, p.2))

/-- One or more comma-separated array elements followed by `]`. -/
def parseElems : Nat → List Char → Option (List Json × List Char)
  | 0, _ => none
  | fuel + 1, cs =>
    match parseJsonVal fuel cs with
    | some (v, rest) =>
      (match skipWs rest with
      | ',' :: rest' =>
        (parseElems fuel rest').map (fun p => (v :: p.1, p.2))
      | ']' :: rest' => some ([v], rest')
      | _ => none)
    | none => none

/-- One or more comma-separated object members followed by the closing
brace. -/
def parseMembers : Nat → List Char → Option (List (List Char × Json) × List Char)
  | 0, _ => none
  | fuel + 1, cs =>
    match skipWs cs with
    | '"' :: rest =>
      (match parseStringBody rest with
      | some (key, rest') =>
        (match skipWs rest' with
        | ':' :: rest'' =>
          (match parseJsonVal fuel rest'' with
          | some (v, rest3) =>
            (match skipWs rest3 with
            | ',' :: rest4 =>
              (parseMembers fuel rest4).map (fun p => ((key, v) :: p.1, p.2))
            | '\x7d' :: rest4 => some ([(key, v)], rest4)
            | _ => none)
          | none => none)
        | _ => none)
      | none => none)
    | _ => none

end

/-- Model of Python `json.loads`: parse one JSON value and require only
whitespace to remain.  The fuel `2 * length + 2` dominates the number of
recursive calls, each of which consumes at least one character. -/
def json_loads (s : List Char) : Option Json :=
  match parseJsonVal (2 * s.length + 2) s with
  | some (v, rest) => if skipWs rest = [] then some v else none
  | none => none

/-! ## search_processor.py -/

/-- `ExtractionProcessor.process`, sentence-splitting phase: replace `!`
and `?` by `.`, split on `.`, keep the stripped pieces longer than 10
characters. -/
def extractionSentences (text : List Char) : List (List Char) :=
  let replaced :=
    (text.map (fun c => if c = '!' then '.' else c)).map
      (fun c => if c = '?' then '.' else c)
  (List.splitOn '.' replaced).filterMap (fun s =>
    let t := pyStrip s
    if t.length > 10 then some t else none)

/-- Distinct elements of a word list (first occurrences), modelling the
coercion of a Python word list to a `set`. -/
def distinctAux : List (List Char) → List (List Char) → List (List Char)
  | [], _ => []
  | w :: ws, seen =>
    if seen.contains w then distinctAux ws seen
    else w :: distinctAux ws (w :: seen)

/-- Distinct elements of a word list (first occurrences kept). -/
def distinctWords (ws : List (List Char)) : List (List Char) := distinctAux ws []

/-- Score of one sentence: size of the intersection of the query word set
with the sentence word set. -/
def wordOverlap (queryWords : List (List Char)) (sentence : List Char) : Nat :=
  let sws := pySplitWs (pyLower sentence)
  ((distinctWords queryWords).filter (fun w => sws.contains w)).length

/-- Stable insertion (descending by score): an element is placed after
every already-placed element with a `≥` score, so that equal scores keep
their original order. -/
def insertDesc (a : Nat × List Char) : List (Nat × List Char) → List (Nat × List Char)
  | [] => [a]
  | b :: rest => if b.1 ≤ a.1 then a :: b :: rest else b :: insertDesc a rest

/-- Stable sort, descending by score.  Python
`list.sort(reverse=True, key=lambda x: x[0])` is a stable descending sort;
any stable descending sort computes the same list, here insertion sort. -/
def sortByScoreDesc : List (Nat × List Char) → List (Nat × List Char)
  | [] => []
  | a :: rest => insertDesc a (sortByScoreDesc rest)

/-- `ExtractionProcessor.process`, scoring phase: score each sentence and
sort descending by score. -/
def extractionScored (sentences : List (List Char)) (query : List Char) :
    List (Nat × List Char) :=
  let queryWords := pySplitWs (pyLower query)
  sortByScoreDesc (sentences.map (fun s => (wordOverlap queryWords s, s)))

/-- `ExtractionProcessor.process`, greedy phase: append sentences while the
running total of raw sentence lengths stays within `maxLen`; stop at the
first sentence that does not fit (Python `break`). -/
def greedyTake (maxLen : Nat) : List (Nat × List Char) → Nat → List (List Char)
  | [], _ => []
  | (_, s) :: rest, cur =>
    if cur + s.length ≤ maxLen then s :: greedyTake maxLen rest (cur + s.length)
    else []

/-- The sentences selected by the greedy phase for a given input. -/
def extractionSelected (maxLen : Nat) (text query : List Char) : List (List Char) :=
  greedyTake maxLen (extractionScored (extractionSentences text) query) 0

/-- `ExtractionProcessor.process`: greedy relevant-sentence extraction with
two fallbacks (no sentences: truncate the raw text; nothing selected:
truncate the first sentence and append an ellipsis). -/
def processExtraction (maxLen : Nat) (text query : List Char) : List Char :=
  match extractionSentences text with
  | [] => text.take maxLen
  | s0 :: _ =>
    match extractionSelected maxLen text query with
    | [] => s0.take maxLen ++ S "..."
    | x :: xs => List.intercalate (S ". ") (x :: xs) ++ S "."

/-- Python `s.rsplit(' ', 1)[0]`: everything before the last space, or the
whole string when it has no space. -/
def pyRsplitSpace1Head (s : List Char) : List Char :=
  match lastIdxOf ' ' s with
  | none => s
  | some i => s.take i

/-- `SimpleProcessor.process`: return the text unchanged when within the
limit, otherwise cut at `maxLen`, back up to the last space, and append an
ellipsis. -/
def processSimple (maxLen : Nat) (text : List Char) : List Char :=
  if maxLen < text.length then pyRsplitSpace1Head (text.take maxLen) ++ S "..."
  else text

/-! ## tool_registry.py -/

/-- A registered tool (`Tool` dataclass).  The handler is modelled as a
function from the decoded parameter object to either a result string or
the message of a raised exception. -/
structure Tool where
  name : List Char
  description : List Char
  parameters : List (List Char × List Char)
  function : Json → Except (List Char) (List Char)

/-- `ToolRegistry`: the name-keyed tool dict, kept in insertion order. -/
structure ToolRegistry where
  tools : List Tool

/-- `ToolRegistry.has_tool`. -/
def ToolRegistry.has_tool (r : ToolRegistry) (name : List Char) : Bool :=
  r.tools.any (fun t => t.name = name)

/-- `ToolRegistry.get`. -/
def ToolRegistry.get (r : ToolRegistry) (name : List Char) : Option Tool :=
  r.tools.find? (fun t => t.name = name)

/-- `ToolRegistry.list_tools`. -/
def ToolRegistry.list_tools (r : ToolRegistry) : List (List Char) :=
  r.tools.map (·.name)

/-- `ToolRegistry.register`: the state after the call together with the
message of the raised `ValueError`, if any.  The duplicate check happens
before any mutation, so on the error path the returned state is the old
one. -/
def ToolRegistry.register (r : ToolRegistry) (t : Tool) :
    ToolRegistry × Option (List Char) :=
  if r.has_tool t.name then
    (r, some (S "Tool \x27" ++ t.name ++ S "\x27 already registered"))
  else ({ tools := r.tools ++ [t] }, none)

/-- `ToolRegistry.execute`: dispatch to the handler; a missing name or a
raising handler is an `Except.error` carrying the exception message. -/
def ToolRegistry.execute (r : ToolRegistry) (name : List Char) (params : Json) :
    Except (List Char) (List Char) :=
  match r.get name with
  | none => .error (S "Tool \x27" ++ name ++ S "\x27 not found in registry")
  | some t => t.function params

/-- `ToolRegistry.format_tools_for_prompt`. -/
def ToolRegistry.format_tools_for_prompt (r : ToolRegistry) : List Char :=
  if r.tools.isEmpty then []
  else
    let descs := r.tools.foldl (fun acc t =>
      acc ++ S "- " ++ t.name ++ S ": " ++ t.description ++ S "\n  Parameters:\n" ++
        (t.parameters.foldl
          (fun a p => a ++ S "    - " ++ p.1 ++ S ": " ++ p.2 ++ S "\n") []) ++
        S "\n")
      (S "You have access to the following tools:\n\n")
    descs ++
      S "To use a tool, respond with a JSON object in this exact format:\n" ++
      S "\x7b\"tool\": \"tool_name\", \"parameters\": \x7b\"param1\": \"value1\", \"param2\": \"value2\"\x7d\x7d\n\n" ++
      S "After receiving tool results, provide your final answer to the user."

/-- `parse_tool_call`, markdown-fence phase: when a fenced block is
present and closed, keep only its stripped interior. -/
def fenceExtracted (t : List Char) : List Char :=
  match findSub (S "```json") t with
  | some i =>
    let js := i + 7
    (match findSubFrom (S "```") t js with
    | some je => pyStrip (pySlice t js je)
    | none => t)
  | none =>
    match findSub (S "```") t with
    | some i =>
      let js := i + 3
      (match findSubFrom (S "```") t js with
      | some je => pyStrip (pySlice t js je)
      | none => t)
    | none => t

/-- `parse_tool_call`, brace phase: the slice from the first `\x7b` to the
last `\x7d` inclusive, provided both exist in that order. -/
def braceSlice (t : List Char) : Option (List Char) :=
  match firstIdxOf '\x7b' t, lastIdxOf '\x7d' t with
  | some i, some j => if i ≤ j then some (pySlice t i (j + 1)) else none
  | _, _ => none

/-- `ToolRegistry.parse_tool_call`: returns the raw decoded `tool` and
`parameters` values, or `(none, none)` when no tool call is recognised.
All decoding failures are swallowed (`except Exception`), as are the
`TypeError`s Python raises when the decoded value is not a dict. -/
def ToolRegistry.parse_tool_call (raw : List Char) : Option Json × Option Json :=
  let t := fenceExtracted (pyStrip raw)
  if containsSub (S "\"tool\"") t then
    match braceSlice t with
    | some s =>
      (match json_loads s with
      | some (Json.obj flds) =>
        (match dictGet flds (S "tool") with
        | some v => (some v, some (dictGetD flds (S "parameters") (Json.obj [])))
        | none => (none, none))
      | _ => (none, none))
    | none => (none, none)
  else (none, none)

/-! ## ollama_client.py -/

/-- `ModelResponse` dataclass. -/
structure ModelResponse where
  text : List Char
  success : Bool
  error : Option (List Char) := none
  status_code : Option Nat := none
  done : Bool := true

/-- The error payload of a stream chunk, one constructor per `error=...`
site of `generate_stream` (the human-readable diagnostic text of a
`JSONDecodeError` is elided). -/
inductive StreamErr where
  | decodeError
  | modelNotFound (model : List Char)
  | httpError (status : Nat) (body : List Char)
  | timeout (secs : Nat)
  | connError
  | exn (msg : List Char)
deriving DecidableEq

/-- `StreamChunk` dataclass.  `text` and `done` hold the raw decoded JSON
values `chunk_data.get('response', '')` and `chunk_data.get('done',
False)`, which Python stores untyped. -/
structure StreamChunk where
  text : Json
  done : Json
  error : Option StreamErr := none

/-- `chunk_data.get('response', '')` on a decoded object. -/
def respOf (flds : List (List Char × Json)) : Json :=
  dictGetD flds (S "response") (Json.str [])

/-- `chunk_data.get('done', False)` on a decoded object. -/
def doneOf (flds : List (List Char × Json)) : Json :=
  dictGetD flds (S "done") (Json.bool false)

/-- Message of the `AttributeError` raised by `chunk_data.get` when the
decoded line is not an object. -/
def attrErrMsg (j : Json) : List Char :=
  S "\x27" ++ pyTypeName j ++ S "\x27 object has no attribute \x27get\x27"

/-- Message of the `TypeError` raised by `full_text += v` for non-string
`v`. -/
def concatTypeErrMsg (j : Json) : List Char :=
  S "can only concatenate str (not \"" ++ pyTypeName j ++ S "\") to str"

/-- The chunk sequence yielded by the body loop of
`OllamaClient.generate_stream` on a 200 response: empty lines are skipped;
a line that fails to decode yields a non-final chunk carrying
`decodeError` and the loop continues; a decoded object yields its chunk
and the loop stops after the first truthy `done`; a decoded non-object
raises `AttributeError`, which the outer handler turns into one final
error chunk. -/
def processLines : List (List Char) → List StreamChunk
  | [] => []
  | line :: rest =>
    if line = [] then processLines rest
    else
      match json_loads line with
      | some (Json.obj flds) =>
        let c : StreamChunk := ⟨respOf flds, doneOf flds, none⟩
        if jsonTruthy (doneOf flds) then [c] else c :: processLines rest
      | some j => [⟨Json.str [], Json.bool true, some (StreamErr.exn (attrErrMsg j))⟩]
      | none => ⟨Json.str [], Json.bool false, some StreamErr.decodeError⟩ :: processLines rest

/-- The HTTP-level outcome of the POST issued by `generate` /
`generate_stream`; for a reply it carries the status, the body lines seen
by `iter_lines`, and the raw body text. -/
inductive HttpOutcome where
  | reply (status : Nat) (bodyLines : List (List Char)) (bodyText : List Char)
  | timeout (secs : Nat)
  | connError
  | exn (msg : List Char)

/-- `OllamaClient.generate_stream` as a function of the HTTP outcome,
mirroring the `if status == 200 / elif 404 / else` chain and the
`except` clauses. -/
def generate_stream (model : List Char) (outcome : HttpOutcome) : List StreamChunk :=
  match outcome with
  | .reply status lines body =>
    if status = 200 then processLines lines
    else if status = 404 then
      [⟨Json.str [], Json.bool true, some (StreamErr.modelNotFound model)⟩]
    else [⟨Json.str [], Json.bool true, some (StreamErr.httpError status body)⟩]
  | .timeout secs => [⟨Json.str [], Json.bool true, some (StreamErr.timeout secs)⟩]
  | .connError => [⟨Json.str [], Json.bool true, some StreamErr.connError⟩]
  | .exn m => [⟨Json.str [], Json.bool true, some (StreamErr.exn m)⟩]

/-- The chunk-collection loop of `OllamaClient.generate` with
`stream=True` on a 200 response: skip empty and undecodable lines,
accumulate `response` fields, stop at the first truthy `done`; a non-dict
line or a non-string `response` raises out of the loop (`Except.error`
carries the exception message caught by the outer handler). -/
def collectStream : List (List Char) → List Char → Except (List Char) (List Char)
  | [], acc => .ok acc
  | line :: rest, acc =>
    if line = [] then collectStream rest acc
    else
      match json_loads line with
      | some (Json.obj flds) =>
        (match respOf flds with
        | Json.str s =>
          if jsonTruthy (doneOf flds) then .ok (acc ++ s)
          else collectStream rest (acc ++ s)
        | v => .error (concatTypeErrMsg v))
      | some j => .error (attrErrMsg j)
      | none => collectStream rest acc

/-- The `ModelResponse` produced by the streamed-collection path of
`OllamaClient.generate` (status 200, `stream=True`). -/
def generateStreamCollect (lines : List (List Char)) : ModelResponse :=
  match collectStream lines [] with
  | .ok t => { text := t, success := true, status_code := some 200 }
  | .error e => { text := [], success := false, error := some e }

/-! ## chatbot.py -/

/-- Python `str(x)` on an optional string (an absent value prints as
`None`), as used by the f-string `f"Error: \x7bresponse.error\x7d"`. -/
def pyStrOpt : Option (List Char) → List Char
  | some s => s
  | none => S "None"

/-- Observable outcome of one `ChatBot.chat` call: the returned answer,
the prompts sent to `OllamaClient.generate` in order (so the number of
backend calls is `prompts.length`), and whether a tool execution was
attempted. -/
structure ChatOutcome where
  answer : List Char
  prompts : List (List Char)
  toolAttempted : Bool

/-- `ChatBot.chat`.  The backend is abstracted as the function mapping the
index of a `generate` call to its `ModelResponse`; timing, loading
animation and printing are I/O cosmetics and are not modelled.  A parsed
tool name that is not a string is treated as a non-match, as in
`if tool_name and self.tools.has_tool(tool_name)` for any hashable
non-string value. -/
def chat (tools : ToolRegistry) (prompt : List Char) (useTools : Bool)
    (backend : Nat → ModelResponse) : ChatOutcome :=
  let system_prompt := tools.format_tools_for_prompt
  let full_prompt :=
    if useTools then system_prompt ++ S "\n\nUser: " ++ prompt ++ S "\n\nAssistant:"
    else prompt
  let response := backend 0
  if response.success then
    let model_response := response.text
    let noTool : ChatOutcome := ⟨model_response, [full_prompt], false⟩
    if useTools then
      match ToolRegistry.parse_tool_call model_response with
      | (some (Json.str name), paramsOpt) =>
        if !name.isEmpty && tools.has_tool name then
          let params := paramsOpt.getD (Json.obj [])
          let tool_result :=
            match tools.execute name params with
            | .ok r => r
            | .error e => S "Tool execution error: " ++ e
          let follow_up_prompt :=
            system_prompt ++ S "\n\nUser: " ++ prompt ++ S "\n\nAssistant: " ++
              model_response ++ S "\n\nTool Result:\n" ++ tool_result ++
              S "\n\nNow provide your final answer to the user based on the tool results:"
          let final_response := backend 1
          if final_response.success then
            ⟨final_response.text, [full_prompt, follow_up_prompt], true⟩
          else
            ⟨S "Error: " ++ pyStrOpt final_response.error,
              [full_prompt, follow_up_prompt], true⟩
        else noTool
      | (some _, _) => noTool
      | (none, _) => noTool
    else noTool
  else ⟨S "Error: " ++ pyStrOpt response.error, [full_prompt], false⟩

/-! ## Vocabulary for the claims about streamed fragments -/

/-- A well-formed backend fragment line: non-empty, decodes to a JSON
object, and its `response` field (when present) is a string — the shape
`\x7bresponse: string, done: bool\x7d` of the backend protocol. -/
def wfFrag (line : List Char) : Bool :=
  !line.isEmpty &&
    match json_loads line with
    | some (Json.obj flds) =>
      (match respOf flds with
      | Json.str _ => true
      | _ => false)
    | _ => false

/-- The `response` text carried by a well-formed fragment line. -/
def fragText (line : List Char) : List Char :=
  match json_loads line with
  | some (Json.obj flds) =>
    (match respOf flds with
    | Json.str s => s
    | _ => [])
  | _ => []

/-- The `done` value carried by a fragment line. -/
def fragDone (line : List Char) : Json :=
  match json_loads line with
  | some (Json.obj flds) => doneOf flds
  | _ => Json.null

/-- The concatenation of the texts of a chunk sequence, as a streaming
consumer accumulates them (`none` when some chunk text is not a string). -/
def concatTexts : List StreamChunk → Option (List Char)
  | [] => some []
  | c :: rest =>
    match c.text with
    | Json.str s => (concatTexts rest).map (fun t => s ++ t)
    | _ => none

/-- Total character length of a list of sentences. -/
def sumLen (l : List (List Char)) : Nat := (l.map List.length).sum

/-! ## Concrete sample data used by witnesses and counterexamples -/

/-- A sample `web_search` tool whose handler succeeds. -/
def sampleTool : Tool :=
  ⟨S "web_search", S "Search the web using DuckDuckGo.",
    [(S "query", S "The search query string")], fun _ => .ok (S "1. result")⟩

/-- A registry holding the sample tool. -/
def sampleRegistry : ToolRegistry := ⟨[sampleTool]⟩

/-- A second tool with the same name, for duplicate registration. -/
def dupTool : Tool := ⟨S "web_search", S "another", [], fun _ => .ok []⟩

/-- A `web_search` tool whose handler raises. -/
def failTool : Tool :=
  ⟨S "web_search", S "Search the web using DuckDuckGo.",
    [(S "query", S "The search query string")],
    fun _ => .error (S "network is down")⟩

/-- A registry holding the failing tool. -/
def failRegistry : ToolRegistry := ⟨[failTool]⟩

/-- A registry that does not know `web_search`. -/
def calcRegistry : ToolRegistry :=
  ⟨[⟨S "calculator", S "Evaluate arithmetic.", [(S "expr", S "expression")],
    fun _ => .ok (S "42")⟩]⟩

/-- A model response that is a bare tool call for `web_search`. -/
def toolCallText : List Char :=
  S "\x7b\"tool\": \"web_search\", \"parameters\": \x7b\"query\": \"x\"\x7d\x7d"

/-- Backend script: first call returns the tool call, second the final
answer. -/
def sampleBackend : Nat → ModelResponse := fun i =>
  if i = 0 then { text := toolCallText, success := true, status_code := some 200 }
  else { text := S "final answer", success := true, status_code := some 200 }

/-- Backend script whose first call fails. -/
def failBackend : Nat → ModelResponse := fun _ =>
  { text := [], success := false, error := some (S "backend unreachable") }

/-- C1 counterexample input: two brace groups, the second being a valid
tool call. -/
def c1text : List Char := S "\x7b\"x\": \"y\"\x7d \x7b\"tool\": \"web_search\"\x7d"

/-- C7 counterexample input text. -/
def c7text : List Char := S "bbbbbbbbbbbbb. hello query here"

/-- C7 counterexample query. -/
def c7query : List Char := S "query here"

/-- A body line that is not decodable JSON. -/
def badLine : List Char := S "bad line"

/-- A well-formed final fragment line. -/
def doneLine : List Char := S "\x7b\"response\": \"hi\", \"done\": true\x7d"

/-- Five-fragment streaming scenario, `done=true` only on the last. -/
def c9l1 : List Char := S "\x7b\"response\": \"Hel\"\x7d"

def c9l2 : List Char := S "\x7b\"response\": \"lo \", \"done\": false\x7d"

def c9l3 : List Char := S "\x7b\"response\": \"wor\"\x7d"

def c9l4 : List Char := S "\x7b\"response\": \"ld\"\x7d"

def c9l5 : List Char := S "\x7b\"response\": \"!\", \"done\": true\x7d"

/-! ## Helper lemmas -/

lemma pyRsplitSpace1Head_length_le (s : List Char) :
    (pyRsplitSpace1Head s).length ≤ s.length := by
  unfold pyRsplitSpace1Head
  cases lastIdxOf ' ' s with
  | none => exact le_rfl
  | some i => simp [List.length_take]

lemma singleton_eq_append_cons {α : Type} {x c : α} {pre post : List α}
    (h : [x] = pre ++ c :: post) : post = [] := by
  have hlen := congrArg List.length h
  simp [List.length_append] at hlen
  exact List.length_eq_zero.mp (by omega)

/-! ## C8: truncation strategy -/

/-- C8: `SimpleProcessor.process` returns the input unchanged when it is
within the max length; otherwise the output is the prefix of at most
`maxLen` characters cut back to the last space, plus the 3-character
ellipsis, hence of length at most `maxLen + 3`.  (The claim's hard bound
`≤ maxLen` fails; see the counterexample.) -/
theorem C8_truncation_bound_amended (maxLen : Nat) (text : List Char) :
    (text.length ≤ maxLen → processSimple maxLen text = text) ∧
    (maxLen < text.length → (processSimple maxLen text).length ≤ maxLen + 3) := by
  constructor
  · intro h
    unfold processSimple
    rw [if_neg (by omega)]
  · intro h
    unfold processSimple
    rw [if_pos h]
    have h1 := pyRsplitSpace1Head_length_le (text.take maxLen)
    have h2 : (text.take maxLen).length ≤ maxLen := by
      simp [List.length_take]
    simp only [List.length_append]
    have h3 : (S "...").length = 3 := rfl
    omega

/-- C8 witness: the amended theorem applied at concrete inputs. -/
theorem C8_witness :
    processSimple 10 (S "short text") = S "short text" ∧
    (processSimple 10 (S "aaaaaaaaaaa")).length ≤ 13 :=
  ⟨(C8_truncation_bound_amended 10 (S "short text")).1 (by decide),
   (C8_truncation_bound_amended 10 (S "aaaaaaaaaaa")).2 (by decide)⟩

/-- C8 counterexample: on an 11-character spaceless input with max length
10, the output has 13 characters, exceeding the claimed hard bound
`≤ maxLen`. -/
theorem C8_counterexample :
    processSimple 10 (S "aaaaaaaaaaa") = S "aaaaaaaaaa..." ∧
    10 < (processSimple 10 (S "aaaaaaaaaaa")).length := ⟨rfl, by decide⟩

/-! ## C10: duplicate registration -/

/-- C10: registering a tool whose name is already present raises the
duplicate-tool `ValueError` and leaves the registry unchanged — the state
after the call is the old state, so every name maps to its original
handler and `list_tools` order is preserved. -/
theorem C10_register_duplicate (r : ToolRegistry) (t : Tool)
    (h : r.has_tool t.name = true) :
    (r.register t).1 = r ∧
    (r.register t).2 = some (S "Tool \x27" ++ t.name ++ S "\x27 already registered") ∧
    (r.register t).1.list_tools = r.list_tools ∧
    (∀ n, (r.register t).1.get n = r.get n) := by
  unfold ToolRegistry.register
  rw [if_pos h]
  exact ⟨rfl, rfl, rfl, fun _ => rfl⟩

/-- C10 witness: registering a second `web_search` tool into the sample
registry fails and leaves the registry unchanged. -/
theorem C10_witness :
    (sampleRegistry.register dupTool).1 = sampleRegistry ∧
    (sampleRegistry.register dupTool).2 =
      some (S "Tool \x27" ++ dupTool.name ++ S "\x27 already registered") :=
  ⟨(C10_register_duplicate sampleRegistry dupTool (by decide)).1,
   (C10_register_duplicate sampleRegistry dupTool (by decide)).2.1⟩

/-! ## C6 / C7: extraction strategy -/

lemma greedyTake_sumLen (maxLen : Nat) (l : List (Nat × List Char)) :
    ∀ cur : Nat, greedyTake maxLen l cur = [] ∨
      sumLen (greedyTake maxLen l cur) + cur ≤ maxLen := by
  induction l with
  | nil => intro cur; left; rfl
  | cons a rest ih =>
    intro cur
    unfold greedyTake
    by_cases h : cur + a.2.length ≤ maxLen
    · right
      rw [if_pos h]
      rcases ih (cur + a.2.length) with h0 | h0
      · rw [h0]; simp [sumLen]; omega
      · simp only [sumLen, List.map_cons, List.sum_cons] at h0 ⊢
        omega
    · left; rw [if_neg h]

lemma intercalate_cons_length (sep x : List Char) (xs : List (List Char)) :
    (List.intercalate sep (x :: xs)).length =
      sumLen (x :: xs) + sep.length * xs.length := by
  induction xs generalizing x with
  | nil => simp [List.intercalate, sumLen]
  | cons y ys ih =>
    have hstep : List.intercalate sep (x :: y :: ys) =
        x ++ sep ++ List.intercalate sep (y :: ys) := by
      simp [List.intercalate, List.intersperse_cons_cons, List.flatten]
    rw [hstep]
    simp only [List.length_append, ih y, sumLen, List.map_cons, List.sum_cons,
      List.length_cons]
    ring

/-- C6 (amended): the extraction strategy's output length is bounded by
`maxLen` plus joining overhead: at most `maxLen + 3` in the fallback
cases, and at most `maxLen + 2·s + 1` when the greedy phase selects `s`
sentences (the greedy check bounds only the sum of raw sentence lengths,
not the `". "` separators and final `"."`).  Uniformly:
`maxLen + max 3 (2·s + 1)`. -/
theorem C6_extraction_length_amended (maxLen : Nat) (text query : List Char) :
    (processExtraction maxLen text query).length ≤
      maxLen + max 3 (2 * (extractionSelected maxLen text query).length + 1) := by
  unfold processExtraction
  split
  · have : (text.take maxLen).length ≤ maxLen := by simp [List.length_take]
    have h3 : 3 ≤ max 3 (2 * (extractionSelected maxLen text query).length + 1) :=
      le_max_left _ _
    omega
  · rename_i s0 rest hsent
    split
    · rename_i hsel
      rw [hsel]
      have h1 : (s0.take maxLen).length ≤ maxLen := by simp [List.length_take]
      have h2 : (S "...").length = 3 := rfl
      simp only [List.length_append]
      omega
    · rename_i x xs hsel
      rw [hsel]
      have hsum := greedyTake_sumLen maxLen
        (extractionScored (extractionSentences text) query) 0
      rw [show greedyTake maxLen (extractionScored (extractionSentences text) query) 0
          = extractionSelected maxLen text query from rfl, hsel] at hsum
      rcases hsum with h0 | h0
      · exact absurd h0 (by simp)
      · have hlen : (List.intercalate (S ". ") (x :: xs) ++ S ".").length
            = x.length + (xs.map List.length).sum + 2 * xs.length + 1 := by
          rw [List.length_append, intercalate_cons_length]
          have hsep : (S ". ").length = 2 := rfl
          have hdot : (S ".").length = 1 := rfl
          rw [hsep, hdot]
          simp only [sumLen, List.map_cons, List.sum_cons]
        rw [hlen]
        simp only [sumLen, List.map_cons, List.sum_cons] at h0
        have hmax := le_max_right 3 (2 * (x :: xs).length + 1)
        simp only [List.length_cons] at hmax ⊢
        omega

/-- C6 counterexample: with max length 24, two 11-character sentences both
pass the greedy check (11 + 11 ≤ 24), but the joined output
`"aaaaaaaaaaa. bbbbbbbbbbb."` has 25 characters — exceeding the claimed
bound although this is not the single-segment fallback case. -/
theorem C6_counterexample :
    processExtraction 24 (S "aaaaaaaaaaa. bbbbbbbbbbb") (S "") =
      S "aaaaaaaaaaa. bbbbbbbbbbb." ∧
    extractionSelected 24 (S "aaaaaaaaaaa. bbbbbbbbbbb") (S "") =
      [S "aaaaaaaaaaa", S "bbbbbbbbbbb"] ∧
    24 < (processExtraction 24 (S "aaaaaaaaaaa. bbbbbbbbbbb") (S "")).length :=
  ⟨rfl, rfl, by decide⟩

/-- C7 (amended): when sentences exist but the greedy phase selects
nothing, the extraction strategy returns the *first* sentence in original
order (not the highest-scored one), hard-truncated to the max length,
with the ellipsis appended. -/
theorem C7_fallback_first_sentence_amended (maxLen : Nat) (text query s0 : List Char)
    (rest : List (List Char))
    (hsent : extractionSentences text = s0 :: rest)
    (hsel : extractionSelected maxLen text query = []) :
    processExtraction maxLen text query = s0.take maxLen ++ S "..." := by
  unfold processExtraction
  rw [hsent, hsel]

/-- C7 witness: the amended fallback theorem applied at a concrete input
where nothing fits. -/
theorem C7_witness :
    processExtraction 12 c7text c7query = (S "bbbbbbbbbbbbb").take 12 ++ S "..." :=
  C7_fallback_first_sentence_amended 12 c7text c7query (S "bbbbbbbbbbbbb")
    [S "hello query here"] rfl rfl

/-- C7 counterexample: with max length 12, no sentence fits; the unique
highest-scored sentence is `"hello query here"` (score 2 against the
query), yet the code returns the truncation of the first sentence
`"bbbbbbbbbbbbb"` (score 0), not of the highest-scored one. -/
theorem C7_counterexample :
    extractionScored (extractionSentences c7text) c7query =
      [(2, S "hello query here"), (0, S "bbbbbbbbbbbbb")] ∧
    extractionSelected 12 c7text c7query = [] ∧
    12 < (S "hello query here").length ∧
    12 < (S "bbbbbbbbbbbbb").length ∧
    processExtraction 12 c7text c7query = S "bbbbbbbbbbbb..." ∧
    processExtraction 12 c7text c7query ≠ (S "hello query here").take 12 ++ S "..." :=
  ⟨rfl, rfl, by decide, by decide, rfl, by decide⟩

/-! ## C3 / C4 / C5: orchestrator -/

/-- C3: when the first-stage generation fails, `chat` makes no second
backend call (exactly one prompt is sent), attempts no tool, and returns
an error string embedding the original error text. -/
theorem C3_first_stage_failure (tools : ToolRegistry) (prompt : List Char)
    (useTools : Bool) (backend : Nat → ModelResponse) (e : List Char)
    (hs : (backend 0).success = false)
    (he : (backend 0).error = some e) :
    (chat tools prompt useTools backend).prompts.length = 1 ∧
    (chat tools prompt useTools backend).toolAttempted = false ∧
    (chat tools prompt useTools backend).answer = S "Error: " ++ e ∧
    e <:+: (chat tools prompt useTools backend).answer := by
  unfold chat
  simp only [hs, he, Bool.false_eq_true, if_false, pyStrOpt]
  refine ⟨by simp, by simp, by simp, ⟨S "Error: ", [], by simp⟩⟩

/-- C3 witness: the failure theorem applied to a concrete failing
backend. -/
theorem C3_witness :
    (chat sampleRegistry (S "hi") true failBackend).prompts.length = 1 ∧
    (chat sampleRegistry (S "hi") true failBackend).toolAttempted = false ∧
    (chat sampleRegistry (S "hi") true failBackend).answer =
      S "Error: " ++ S "backend unreachable" ∧
    S "backend unreachable" <:+: (chat sampleRegistry (S "hi") true failBackend).answer :=
  C3_first_stage_failure sampleRegistry (S "hi") true failBackend
    (S "backend unreachable") rfl rfl

/-- C4: when a recognized tool call's handler raises, `chat` does not
abort: the failure is captured as the literal tool-result text
`"Tool execution error: <message>"`, the second-stage call is still
issued (two prompts total), and the second-stage prompt contains the
captured error text. -/
theorem C4_tool_error_second_stage (tools : ToolRegistry) (prompt : List Char)
    (backend : Nat → ModelResponse) (name msg : List Char) (params : Json)
    (hs : (backend 0).success = true)
    (hp : ToolRegistry.parse_tool_call (backend 0).text =
      (some (Json.str name), some params))
    (hne : name.isEmpty = false)
    (hht : tools.has_tool name = true)
    (hex : tools.execute name params = Except.error msg) :
    (chat tools prompt true backend).prompts.length = 2 ∧
    (chat tools prompt true backend).toolAttempted = true ∧
    ∃ p, (chat tools prompt true backend).prompts.getLast? = some p ∧
      (S "Tool execution error: " ++ msg) <:+: p := by
  unfold chat
  simp only [hs, hp, hne, hht, hex, if_true, Bool.not_false, Bool.true_and,
    Option.getD_some]
  split
  all_goals
    refine ⟨by simp, by simp, ?_⟩
    exact ⟨tools.format_tools_for_prompt ++ S "\n\nUser: " ++ prompt ++
        S "\n\nAssistant: " ++ (backend 0).text ++ S "\n\nTool Result:\n" ++
        (S "Tool execution error: " ++ msg) ++
        S "\n\nNow provide your final answer to the user based on the tool results:",
      by simp [List.append_assoc],
      tools.format_tools_for_prompt ++ S "\n\nUser: " ++ prompt ++
        S "\n\nAssistant: " ++ (backend 0).text ++ S "\n\nTool Result:\n",
      S "\n\nNow provide your final answer to the user based on the tool results:",
      by simp [List.append_assoc]⟩

/-- C4 witness: the tool-failure theorem applied to the failing sample
registry and a backend that first emits the tool call. -/
theorem C4_witness :
    (chat failRegistry (S "hi") true sampleBackend).prompts.length = 2 ∧
    (chat failRegistry (S "hi") true sampleBackend).toolAttempted = true ∧
    ∃ p, (chat failRegistry (S "hi") true sampleBackend).prompts.getLast? = some p ∧
      (S "Tool execution error: " ++ S "network is down") <:+: p :=
  C4_tool_error_second_stage failRegistry (S "hi") sampleBackend
    (S "web_search") (S "network is down")
    (Json.obj [(S "query", Json.str (S "x"))]) rfl rfl rfl rfl rfl

/-- C5: when a tool call is parsed but its name is not registered, `chat`
behaves exactly as the no-tool case: one backend call, no tool attempt,
and the first-stage response text is returned unchanged. -/
theorem C5_unknown_tool_no_op (tools : ToolRegistry) (prompt : List Char)
    (backend : Nat → ModelResponse) (name : List Char) (paramsOpt : Option Json)
    (hs : (backend 0).success = true)
    (hp : ToolRegistry.parse_tool_call (backend 0).text =
      (some (Json.str name), paramsOpt))
    (hht : tools.has_tool name = false) :
    (chat tools prompt true backend).answer = (backend 0).text ∧
    (chat tools prompt true backend).prompts.length = 1 ∧
    (chat tools prompt true backend).toolAttempted = false := by
  unfold chat
  simp only [hs, hp, hht, if_true, Bool.and_false, Bool.false_eq_true, if_false]
  exact ⟨by simp, by simp, by simp⟩

/-- C5 witness: the unknown-tool theorem applied to a registry that lacks
`web_search` while the backend emits a `web_search` call. -/
theorem C5_witness :
    (chat calcRegistry (S "hi") true sampleBackend).answer = toolCallText ∧
    (chat calcRegistry (S "hi") true sampleBackend).prompts.length = 1 ∧
    (chat calcRegistry (S "hi") true sampleBackend).toolAttempted = false :=
  C5_unknown_tool_no_op calcRegistry (S "hi") sampleBackend (S "web_search")
    (some (Json.obj [(S "query", Json.str (S "x"))])) rfl rfl rfl

/-! ## C1: tool-call parsing -/

/-- C1 (amended): `parse_tool_call` recognises a tool call whenever, after
stripping and fence extraction, the slice from the first `\x7b` to the last
`\x7d` is itself a decodable JSON object with a `tool` field (and, as the
code's cheap pre-filter requires, the literal substring `"tool"` occurs —
automatic when the key is written without escapes): the returned name is
exactly the JSON `tool` field and the parameters are the `parameters`
field, defaulting to the empty object.  (As claimed for a registered tool
name; the text merely *containing* a valid tool-call JSON somewhere is not
sufficient — see the counterexample.) -/
theorem C1_parse_tool_call_amended (raw s name : List Char)
    (flds : List (List Char × Json)) (reg : ToolRegistry)
    (hpre : containsSub (S "\"tool\"") (fenceExtracted (pyStrip raw)) = true)
    (hslice : braceSlice (fenceExtracted (pyStrip raw)) = some s)
    (hdec : json_loads s = some (Json.obj flds))
    (htool : dictGet flds (S "tool") = some (Json.str name))
    (_hreg : reg.has_tool name = true) :
    ToolRegistry.parse_tool_call raw =
      (some (Json.str name), some (dictGetD flds (S "parameters") (Json.obj []))) := by
  unfold ToolRegistry.parse_tool_call
  simp only [hpre, hslice, hdec, htool, eq_self_iff_true, if_true]

/-- C1 witness: the amended theorem applied to a concrete bare tool call
for the registered `web_search` tool. -/
theorem C1_witness :
    ToolRegistry.parse_tool_call toolCallText =
      (some (Json.str (S "web_search")),
        some (Json.obj [(S "query", Json.str (S "x"))])) :=
  C1_parse_tool_call_amended toolCallText toolCallText (S "web_search")
    [(S "tool", Json.str (S "web_search")),
     (S "parameters", Json.obj [(S "query", Json.str (S "x"))])]
    sampleRegistry rfl rfl rfl rfl rfl

/-- C1 counterexample: `c1text` contains (as a substring) a syntactically
valid bare tool-call JSON object naming the registered tool `web_search`,
yet `parse_tool_call` returns `(none, none)`: the slice from the first
`\x7b` to the last `\x7d` spans both brace groups and fails to decode. -/
theorem C1_counterexample :
    c1text = S "\x7b\"x\": \"y\"\x7d " ++ S "\x7b\"tool\": \"web_search\"\x7d" ++ [] ∧
    json_loads (S "\x7b\"tool\": \"web_search\"\x7d") =
      some (Json.obj [(S "tool", Json.str (S "web_search"))]) ∧
    sampleRegistry.has_tool (S "web_search") = true ∧
    ToolRegistry.parse_tool_call c1text = (none, none) :=
  ⟨by decide, rfl, rfl, rfl⟩

/-! ## C2: stream error fragments -/

lemma processLines_chunk_shape (lines : List (List Char)) :
    ∀ (pre : List StreamChunk) (c : StreamChunk) (post : List StreamChunk),
      processLines lines = pre ++ c :: post → post ≠ [] →
      jsonTruthy c.done = false ∧
        (c.error = none ∨ c.error = some StreamErr.decodeError) := by
  induction lines with
  | nil =>
    intro pre c post h _
    exact absurd h (by simp [processLines])
  | cons line rest ih =>
    intro pre c post h hpost
    unfold processLines at h
    by_cases hl : line = []
    · rw [if_pos hl] at h
      exact ih pre c post h hpost
    · rw [if_neg hl] at h
      rcases hj : json_loads line with _ | j
      · simp only [hj] at h
        cases pre with
        | nil =>
          simp only [List.nil_append, List.cons.injEq] at h
          rw [← h.1]
          exact ⟨rfl, Or.inr rfl⟩
        | cons p ps =>
          simp only [List.cons_append, List.cons.injEq] at h
          exact ih ps c post h.2 hpost
      · cases j with
        | obj flds =>
          simp only [hj] at h
          by_cases hd : jsonTruthy (doneOf flds) = true
          · rw [if_pos hd] at h
            exact absurd (singleton_eq_append_cons h) hpost
          · rw [if_neg hd] at h
            cases pre with
            | nil =>
              simp only [List.nil_append, List.cons.injEq] at h
              rw [← h.1]
              exact ⟨by simpa using hd, Or.inl rfl⟩
            | cons p ps =>
              simp only [List.cons_append, List.cons.injEq] at h
              exact ih ps c post h.2 hpost
        | null =>
          simp only [hj] at h
          exact absurd (singleton_eq_append_cons h) hpost
        | bool b =>
          simp only [hj] at h
          exact absurd (singleton_eq_append_cons h) hpost
        | num raw =>
          simp only [hj] at h
          exact absurd (singleton_eq_append_cons h) hpost
        | str s =>
          simp only [hj] at h
          exact absurd (singleton_eq_append_cons h) hpost
        | arr xs =>
          simp only [hj] at h
          exact absurd (singleton_eq_append_cons h) hpost

/-- C2 (amended): malformed body lines do not terminate the stream, but
they are not silently skipped: each yields a *non-final* fragment carrying
the decode error (empty text, `done=false`) and processing continues with
the remaining lines.  All other error fragments are terminal: every
fragment with a truthy `done` (which includes every HTTP-level and
exception fragment) is the last one, and every fragment carrying an error
other than a decode error is the last one. -/
theorem C2_stream_errors_amended :
    (∀ (model : List Char) (outcome : HttpOutcome) (pre : List StreamChunk)
        (c : StreamChunk) (post : List StreamChunk),
        generate_stream model outcome = pre ++ c :: post →
        jsonTruthy c.done = true → post = []) ∧
    (∀ (model : List Char) (outcome : HttpOutcome) (pre : List StreamChunk)
        (c : StreamChunk) (post : List StreamChunk),
        generate_stream model outcome = pre ++ c :: post →
        c.error.isSome = true → c.error ≠ some StreamErr.decodeError → post = []) ∧
    (∀ (line : List Char) (rest : List (List Char)),
        line ≠ [] → json_loads line = none →
        processLines (line :: rest) =
          ⟨Json.str [], Json.bool false, some StreamErr.decodeError⟩ ::
            processLines rest) := by
  refine ⟨?_, ?_, ?_⟩
  · intro model outcome pre c post h hdone
    by_cases hpost : post = []
    · exact hpost
    · cases outcome with
      | reply status lines body =>
        simp only [generate_stream] at h
        by_cases h200 : status = 200
        · rw [if_pos h200] at h
          have := (processLines_chunk_shape lines pre c post h hpost).1
          rw [hdone] at this
          exact absurd this (by simp)
        · rw [if_neg h200] at h
          by_cases h404 : status = 404
          · rw [if_pos h404] at h
            exact singleton_eq_append_cons h
          · rw [if_neg h404] at h
            exact singleton_eq_append_cons h
      | timeout secs => exact singleton_eq_append_cons h
      | connError => exact singleton_eq_append_cons h
      | exn m => exact singleton_eq_append_cons h
  · intro model outcome pre c post h herr hne
    by_cases hpost : post = []
    · exact hpost
    · cases outcome with
      | reply status lines body =>
        simp only [generate_stream] at h
        by_cases h200 : status = 200
        · rw [if_pos h200] at h
          rcases (processLines_chunk_shape lines pre c post h hpost).2 with h0 | h0
          · rw [h0] at herr; exact absurd herr (by simp)
          · exact absurd h0 hne
        · rw [if_neg h200] at h
          by_cases h404 : status = 404
          · rw [if_pos h404] at h
            exact singleton_eq_append_cons h
          · rw [if_neg h404] at h
            exact singleton_eq_append_cons h
      | timeout secs => exact singleton_eq_append_cons h
      | connError => exact singleton_eq_append_cons h
      | exn m => exact singleton_eq_append_cons h
  · intro line rest hne hj
    simp only [processLines]
    rw [if_neg hne]
    simp only [hj]

/-- C2 witness: both terminality conjuncts and the decode-continuation
conjunct applied at concrete inputs. -/
theorem C2_witness :
    ([] : List StreamChunk) = [] ∧
    processLines [badLine, doneLine] =
      ⟨Json.str [], Json.bool false, some StreamErr.decodeError⟩ ::
        processLines [doneLine] :=
  ⟨C2_stream_errors_amended.1 (S "phi3:mini") (HttpOutcome.reply 200 [doneLine] [])
      [] ⟨Json.str (S "hi"), Json.bool true, none⟩ [] rfl rfl,
   C2_stream_errors_amended.2.2 badLine [doneLine] (by decide) rfl⟩

/-- C2 counterexample: a malformed line followed by a well-formed final
line yields a fragment with the error field set that is *not* terminal —
a second fragment follows it — refuting both that malformed lines are
skipped and that error fragments are always terminal. -/
theorem C2_counterexample :
    processLines [badLine, doneLine] =
      [⟨Json.str [], Json.bool false, some StreamErr.decodeError⟩,
       ⟨Json.str (S "hi"), Json.bool true, none⟩] ∧
    (processLines [badLine, doneLine]).head?.map StreamChunk.error =
      some (some StreamErr.decodeError) ∧
    (processLines [badLine, doneLine]).length = 2 :=
  ⟨rfl, rfl, rfl⟩

/-! ## C9: streamed vs collected generation -/

lemma wfFrag_elim {l : List Char} (h : wfFrag l = true) :
    l ≠ [] ∧ ∃ flds, json_loads l = some (Json.obj flds) ∧
      respOf flds = Json.str (fragText l) ∧ fragDone l = doneOf flds := by
  unfold wfFrag at h
  rw [Bool.and_eq_true] at h
  refine ⟨by simpa using h.1, ?_⟩
  have h2 := h.2
  rcases hj : json_loads l with _ | j
  · rw [hj] at h2; simp at h2
  · cases j with
    | obj flds =>
      simp only [hj] at h2
      rcases hr : respOf flds with _ | b | raw | s | xs | f <;> rw [hr] at h2 <;>
        try exact Bool.noConfusion h2
      have ht : fragText l = s := by simp only [fragText, hj, hr]
      refine ⟨flds, rfl, ?_, ?_⟩
      · rw [ht]; exact hr
      · simp only [fragDone, hj]
    | null => simp only [hj] at h2; exact Bool.noConfusion h2
    | bool b => simp only [hj] at h2; exact Bool.noConfusion h2
    | num raw => simp only [hj] at h2; exact Bool.noConfusion h2
    | str s => simp only [hj] at h2; exact Bool.noConfusion h2
    | arr xs => simp only [hj] at h2; exact Bool.noConfusion h2

lemma stream_collect_agree (last : List Char)
    (hwl : wfFrag last = true) (hdl : fragDone last = Json.bool true)
    (pre : List (List Char)) :
    pre.all (fun l => wfFrag l && !jsonTruthy (fragDone l)) = true →
    ∀ acc, (collectStream (pre ++ [last]) acc =
        .ok (acc ++ ((pre.map fragText).flatten ++ fragText last)) ∧
      concatTexts (processLines (pre ++ [last])) =
        some ((pre.map fragText).flatten ++ fragText last)) := by
  induction pre with
  | nil =>
    intro _ acc
    obtain ⟨hne, flds, hj, hr, hd⟩ := wfFrag_elim hwl
    have hdone : doneOf flds = Json.bool true := by rw [← hd, hdl]
    constructor
    · simp only [List.nil_append, collectStream]
      rw [if_neg hne]
      simp only [hj, hr, hdone, jsonTruthy, if_true]
      simp
    · simp only [List.nil_append, processLines]
      rw [if_neg hne]
      simp only [hj, hdone, jsonTruthy, if_true, concatTexts, hr]
      simp
  | cons l pre' ih =>
    intro hall acc
    rw [List.all_cons, Bool.and_eq_true] at hall
    obtain ⟨hl, hall'⟩ := hall
    rw [Bool.and_eq_true] at hl
    obtain ⟨hwfl, hndone⟩ := hl
    obtain ⟨hne, flds, hj, hr, hd⟩ := wfFrag_elim hwfl
    have hdone : jsonTruthy (doneOf flds) = false := by
      rw [← hd]; simpa using hndone
    have IH := ih hall' (acc ++ fragText l)
    constructor
    · rw [List.cons_append]
      simp only [collectStream]
      rw [if_neg hne]
      simp only [hj, hr, hdone, Bool.false_eq_true, if_false]
      rw [IH.1]
      simp [List.append_assoc]
    · rw [List.cons_append]
      simp only [processLines]
      rw [if_neg hne]
      simp only [hj, hdone, Bool.false_eq_true, if_false, concatTexts, hr]
      rw [IH.2]
      simp [List.append_assoc]

/-- C9: for a newline-delimited fragment sequence of well-formed fragments
with `done=true` only on the last, the concatenation of the texts yielded
by the stream loop of `generate_stream` equals the `text` of the single
successful result of the streamed-collection path of `generate`. -/
theorem C9_stream_collect_equiv (pre : List (List Char)) (last : List Char)
    (hpre : pre.all (fun l => wfFrag l && !jsonTruthy (fragDone l)) = true)
    (hwl : wfFrag last = true) (hdl : fragDone last = Json.bool true) :
    (generateStreamCollect (pre ++ [last])).success = true ∧
    concatTexts (processLines (pre ++ [last])) =
      some ((generateStreamCollect (pre ++ [last])).text) := by
  have h := stream_collect_agree last hwl hdl pre hpre []
  unfold generateStreamCollect
  rw [h.1]
  refine ⟨rfl, ?_⟩
  rw [h.2]
  simp

/-- C9 witness: the equivalence applied to the five-fragment scenario with
`done=true` only on the last fragment; both paths produce `"Hello world!"`. -/
theorem C9_witness :
    (generateStreamCollect [c9l1, c9l2, c9l3, c9l4, c9l5]).success = true ∧
    concatTexts (processLines [c9l1, c9l2, c9l3, c9l4, c9l5]) =
      some ((generateStreamCollect [c9l1, c9l2, c9l3, c9l4, c9l5]).text) :=
  C9_stream_collect_equiv [c9l1, c9l2, c9l3, c9l4] c9l5 rfl rfl rfl
